import Mathlib

/-!
Shallow embedding of the aggregation core of the logistics dashboard
(`src/streamlit_app.py`): the loader/enricher (`load_data`), the aggregator
(`get_aggregated_data`), the KPI calculator (`calculate_kpis`) and the date
filter applied to the enriched table.

Modelling conventions:
* pandas float columns are modelled as `Rat`; Python `round(x, n)` is modelled
  as round-half-even on `Rat` (`roundTo`), matching Python at every non-tie
  point.
* a pandas `Timestamp` is a `DateTime` (calendar fields plus a time-of-day
  component `tod`); chronological comparison of timestamps is lexicographic on
  (year, month, day, tod).
* the `month_year` column (the string "YYYY-MM") is modelled by the pair
  (year, month) and the `week_year` column (the string "YYYY-MM-DD" of the
  week start) by the week-start day number; for AD dates the zero-padded
  string forms used by the source agree with these keys both as grouping keys
  (the formatting is injective) and in sort order (it is monotone), so
  grouping and group ordering are unchanged.  The `fiscal_quarter` column is
  kept as the literal strings "Q1".."Q4" exactly as in the source, since the
  quarterly sort runs over those strings.
* `df.groupby(keys).agg(...)` with pandas' default `sort=True` is modelled as:
  take the distinct key values, sort them ascending, and emit one output row
  per key computed over the bucket of matching input rows.
-/

attribute [local semireducible] Rat.mul Rat.inv Rat.add Rat.sub Rat.ofScientific

namespace Logistics

/-- A calendar timestamp: the `date` column after `pd.to_datetime`.  `tod` is
the time-of-day component (e.g. seconds since midnight); all date-derived
columns ignore it. -/
structure DateTime where
  year : Int
  month : Nat
  day : Nat
  tod : Nat
deriving DecidableEq, Repr

/-- A calendar date with no time component: the value of `Timestamp.date()`. -/
structure Day where
  year : Int
  month : Nat
  day : Nat
deriving DecidableEq, Repr

/-- `.dt.date`: drop the time-of-day component. -/
def DateTime.dateOnly (t : DateTime) : Day := ⟨t.year, t.month, t.day⟩

/-- Days since 1970-01-01 of a civil date (standard civil-from-days
conversion, as used by pandas timestamps internally). -/
def toDayNumber (y : Int) (m : Nat) (d : Nat) : Int :=
  let yAdj : Int := if m ≤ 2 then y - 1 else y
  let era : Int := Int.fdiv yAdj 400
  let yoe : Int := yAdj - era * 400
  let mp : Int := Int.fmod ((m : Int) + 9) 12
  let doy : Int := Int.fdiv (153 * mp + 2) 5 + (d : Int) - 1
  let doe : Int := yoe * 365 + Int.fdiv yoe 4 - Int.fdiv yoe 100 + doy
  era * 146097 + doe - 719468

/-- Inverse of `toDayNumber`: the civil date (year, month, day) of a day
number. -/
def civilFromDays (z0 : Int) : Int × Nat × Nat :=
  let z := z0 + 719468
  let era := Int.fdiv z 146097
  let doe := z - era * 146097
  let yoe := Int.fdiv (doe - Int.fdiv doe 1460 + Int.fdiv doe 36524 - Int.fdiv doe 146096) 365
  let y := yoe + era * 400
  let doy := doe - (365 * yoe + Int.fdiv yoe 4 - Int.fdiv yoe 100)
  let mp := Int.fdiv (5 * doy + 2) 153
  let d := doy - Int.fdiv (153 * mp + 2) 5 + 1
  let m := if mp < 10 then mp + 3 else mp - 9
  (if m ≤ 2 then y + 1 else y, m.toNat, d.toNat)

/-- Weekday of a day number, Monday = 0 .. Sunday = 6 (1970-01-01 was a
Thursday). -/
def weekdayOf (z : Int) : Int := Int.fmod (z + 3) 7

/-- Day number of the Monday starting the week containing `z`: the
`start_time` of `to_period('W')`. -/
def weekStartDay (z : Int) : Int := z - weekdayOf z

/-- ISO calendar week number of a day number
(`dt.isocalendar().week`). -/
def isoWeekOf (z : Int) : Int :=
  let thu := weekStartDay z + 3
  let c := civilFromDays thu
  Int.fdiv (thu - toDayNumber c.1 1 1) 7 + 1

/-- `dt.day_name()`. -/
def dayName (z : Int) : String :=
  let w := weekdayOf z
  if w = 0 then "Monday"
  else if w = 1 then "Tuesday"
  else if w = 2 then "Wednesday"
  else if w = 3 then "Thursday"
  else if w = 4 then "Friday"
  else if w = 5 then "Saturday"
  else "Sunday"

/-- Zero-pad a natural number to `w` digits. -/
def padNat (w : Nat) (n : Nat) : String :=
  let s := toString n
  String.mk (List.replicate (w - s.length) '0') ++ s

/-- Format a day number as "YYYY-MM-DD" (`strftime('%Y-%m-%d')`). -/
def formatDayNum (z : Int) : String :=
  let c := civilFromDays z
  padNat 4 c.1.toNat ++ "-" ++ padNat 2 c.2.1 ++ "-" ++ padNat 2 c.2.2

/-- One raw CSV row of `data/deliveries.csv` after date parsing. -/
structure RawRecord where
  delivery_id : Int
  date : DateTime
  delay_minutes : Rat
  delivery_cost : Rat
  fuel_cost : Rat
  distance_km : Rat
  customer_rating : Rat
  driver : String
deriving DecidableEq, Repr

/-- A raw row plus every derived column added by `load_data`. -/
structure Record extends RawRecord where
  on_time : Bool
  year : Int
  month : Nat
  week : Int
  day_of_week : String
  month_year : Int × Nat
  week_year : Int
  fiscal_year : Int
  fiscal_quarter : String
deriving DecidableEq, Repr

/-- `lambda x: x.year if x.month >= 7 else x.year - 1` (July–June fiscal
year). -/
def fiscalYearOf (year : Int) (month : Nat) : Int :=
  if 7 ≤ month then year else year - 1

/-- The `fiscal_quarter(month)` helper inside `load_data`. -/
def fiscal_quarter (month : Nat) : String :=
  if month = 7 ∨ month = 8 ∨ month = 9 then "Q1"
  else if month = 10 ∨ month = 11 ∨ month = 12 then "Q2"
  else if month = 1 ∨ month = 2 ∨ month = 3 then "Q3"
  else "Q4"

/-- The per-row derivation performed by `load_data` (lines 17–40): the
on-time flag and all time-grouping columns. -/
def enrich (r : RawRecord) : Record :=
  let z := toDayNumber r.date.year r.date.month r.date.day
  { toRawRecord := r
    on_time := r.delay_minutes ≤ 15
    year := r.date.year
    month := r.date.month
    week := isoWeekOf z
    day_of_week := dayName z
    month_year := (r.date.year, r.date.month)
    week_year := weekStartDay z
    fiscal_year := fiscalYearOf r.date.year r.date.month
    fiscal_quarter := fiscal_quarter r.date.month }

/-- The value stored in the `Period` column: for Daily grouping the source
keeps the timestamp itself, for the other groupings a string label. -/
inductive PeriodVal where
  | ts (t : DateTime)
  | str (s : String)
deriving DecidableEq, Repr

/-- One output row of `get_aggregated_data` after renaming and rounding. -/
structure AggRow where
  Period : PeriodVal
  Total_Deliveries : Nat
  On_Time_Rate : Rat
  Avg_Delay : Rat
  Total_Cost : Rat
  Total_Fuel : Rat
  Total_Distance : Rat
  Avg_Rating : Rat
deriving DecidableEq, Repr

/-- pandas `mean` of a column (never applied to an empty bucket by the
aggregator; the KPI calculator guards its empty case separately). -/
def qmean (xs : List Rat) : Rat := xs.sum / (xs.length : Rat)

/-- Python `round` to an integer: round-half-even. -/
def roundHalfEven (q : Rat) : Int :=
  let f := q.floor
  let frac := q - (f : Rat)
  if frac < 1 / 2 then f
  else if 1 / 2 < frac then f + 1
  else if f % 2 = 0 then f else f + 1

/-- Ten to a natural power, as a rational. -/
def pow10 : Nat → Rat
  | 0 => 1
  | n + 1 => 10 * pow10 n

/-- Python `round(q, p)` / pandas `.round(p)`. -/
def roundTo (p : Nat) (q : Rat) : Rat :=
  (roundHalfEven (q * pow10 p) : Rat) / pow10 p

/-- One aggregated row over the bucket `g` of records sharing a key: the
`agg_dict` metrics of `get_aggregated_data`, renamed by `col_rename` and
rounded exactly as in lines 98–103 of the source. -/
def aggRow (p : PeriodVal) (g : List Record) : AggRow :=
  { Period := p
    Total_Deliveries := g.length
    On_Time_Rate := roundTo 1 (qmean (g.map (fun r => if r.on_time then (1 : Rat) else 0)) * 100)
    Avg_Delay := roundTo 1 (qmean (g.map (fun r => r.delay_minutes)))
    Total_Cost := roundTo 2 (g.map (fun r => r.delivery_cost)).sum
    Total_Fuel := roundTo 2 (g.map (fun r => r.fuel_cost)).sum
    Total_Distance := roundTo 1 (g.map (fun r => r.distance_km)).sum
    Avg_Rating := roundTo 2 (qmean (g.map (fun r => r.customer_rating))) }

/-- The distinct key values of `rs` under `key`, sorted ascending by `le`:
the index produced by `df.groupby(...)` with pandas' default `sort=True`. -/
def sortedKeys {κ : Type} [DecidableEq κ] (le : κ → κ → Prop) [DecidableRel le]
    (key : Record → κ) (rs : List Record) : List κ :=
  List.insertionSort le (rs.map key).dedup

/-- `df.groupby(key).agg(agg_dict)` followed by the renames and rounding of
`get_aggregated_data`: one row per distinct key, in ascending key order,
computed over the bucket of records having that key. -/
def aggBy {κ : Type} [DecidableEq κ] (le : κ → κ → Prop) [DecidableRel le]
    (key : Record → κ) (mk : κ → PeriodVal) (rs : List Record) : List AggRow :=
  (sortedKeys le key rs).map (fun k => aggRow (mk k) (rs.filter (fun r => key r = k)))

/-- Chronological order on timestamps: lexicographic on
(year, month, day, time-of-day). -/
def dtLE (a b : DateTime) : Prop :=
  a.year < b.year ∨ (a.year = b.year ∧ (a.month < b.month ∨ (a.month = b.month ∧
    (a.day < b.day ∨ (a.day = b.day ∧ a.tod ≤ b.tod)))))

instance (a b : DateTime) : Decidable (dtLE a b) := by
  unfold dtLE; infer_instance

/-- Order of the `month_year` keys: by year, then month (string order of the
"YYYY-MM" labels coincides with this for AD dates). -/
def ymLE (a b : Int × Nat) : Prop :=
  a.1 < b.1 ∨ (a.1 = b.1 ∧ a.2 ≤ b.2)

instance (a b : Int × Nat) : Decidable (ymLE a b) := by
  unfold ymLE; infer_instance

/-- Lexicographic comparison of character sequences by code point: the
comparison Python (and hence pandas) applies when sorting string values. -/
def charListLeb : List Char → List Char → Bool
  | [], _ => true
  | _ :: _, [] => false
  | a :: as, b :: bs => if a < b then true else if b < a then false else charListLeb as bs

/-- Python string comparison `a <= b` (lexicographic by code point). -/
def strLE (a b : String) : Prop := charListLeb a.data b.data = true

instance (a b : String) : Decidable (strLE a b) := by
  unfold strLE; infer_instance

/-- Order in which pandas sorts the (fiscal_year, fiscal_quarter) group keys:
the integer year first, then the quarter label as a string. -/
def fqLE (a b : Int × String) : Prop :=
  a.1 < b.1 ∨ (a.1 = b.1 ∧ strLE a.2 b.2)

instance (a b : Int × String) : Decidable (fqLE a b) := by
  unfold fqLE; infer_instance

/-- The four grouping values accepted by `get_aggregated_data`
(the keys of `group_keys`). -/
def validGroupings : List String := ["Daily", "Weekly", "Monthly", "Quarterly"]

/-- `get_aggregated_data(df, grouping)`: dispatch on the grouping, group by
the corresponding key column(s), aggregate each bucket, build the `Period`
label, and reject any other grouping with the `ValueError` of line 77. -/
def get_aggregated_data (rs : List Record) (grouping : String) :
    Except String (List AggRow) :=
  if grouping = "Daily" then
    .ok (aggBy dtLE (fun r => r.date) (fun k => .ts k) rs)
  else if grouping = "Weekly" then
    .ok (aggBy (fun a b : Int => a ≤ b) (fun r => r.week_year)
      (fun k => .str (formatDayNum k)) rs)
  else if grouping = "Monthly" then
    .ok (aggBy ymLE (fun r => r.month_year)
      (fun k => .str (padNat 4 k.1.toNat ++ "-" ++ padNat 2 k.2)) rs)
  else if grouping = "Quarterly" then
    .ok (aggBy fqLE (fun r => (r.fiscal_year, r.fiscal_quarter))
      (fun k => .str (toString k.1 ++ "-" ++ k.2)) rs)
  else
    .error ("Unsupported grouping: " ++ grouping)

/-- The scalar KPI record returned by `calculate_kpis`. -/
structure KPISummary where
  total_deliveries : Nat
  on_time_rate : Rat
  avg_delay : Rat
  total_cost : Rat
  total_distance : Rat
  avg_rating : Rat
deriving DecidableEq, Repr

/-- The delay values of the late deliveries:
`df[df['delay_minutes'] > 15]['delay_minutes']`. -/
def lateDelays (rs : List Record) : List Rat :=
  (rs.filter (fun r => 15 < r.delay_minutes)).map (fun r => r.delay_minutes)

/-- The local `avg_delay` of `calculate_kpis` (lines 113–114): the mean of
the late delays, with the NaN of an empty mean replaced by 0. -/
def kpiAvgDelay (rs : List Record) : Rat :=
  if (lateDelays rs).length = 0 then 0 else qmean (lateDelays rs)

/-- `calculate_kpis(df)`. -/
def calculate_kpis (rs : List Record) : KPISummary :=
  let total_deliveries := rs.length
  let on_time_count := (rs.filter (fun r => r.on_time)).length
  let on_time_rate : Rat :=
    if 0 < total_deliveries then (on_time_count : Rat) / (total_deliveries : Rat) * 100 else 0
  { total_deliveries := total_deliveries
    on_time_rate := roundTo 1 on_time_rate
    avg_delay := roundTo 1 (kpiAvgDelay rs)
    total_cost := roundTo 1 (rs.map (fun r => r.delivery_cost)).sum
    total_distance := roundTo 1 (rs.map (fun r => r.distance_km)).sum
    avg_rating :=
      if 0 < total_deliveries then roundTo 2 (qmean (rs.map (fun r => r.customer_rating)))
      else 0 }

/-- Calendar order on dates (no time component). -/
def dayLE (a b : Day) : Prop :=
  a.year < b.year ∨ (a.year = b.year ∧ (a.month < b.month ∨ (a.month = b.month ∧ a.day ≤ b.day)))

instance (a b : Day) : Decidable (dayLE a b) := by
  unfold dayLE; infer_instance

/-- The date-range filter of line 251:
`df[(df['date'].dt.date >= start_date) & (df['date'].dt.date <= end_date)]`. -/
def filter_by_date_range (rs : List Record) (start_date end_date : Day) : List Record :=
  rs.filter (fun r => dayLE start_date r.date.dateOnly ∧ dayLE r.date.dateOnly end_date)

/-- First record of the worked example in the spec:
date 2024-07-05, delay 10, delivery cost 100. -/
def exRaw1 : RawRecord :=
  { delivery_id := 1, date := ⟨2024, 7, 5, 0⟩, delay_minutes := 10,
    delivery_cost := 100, fuel_cost := 5, distance_km := 50,
    customer_rating := 5, driver := "A" }

/-- Second record of the worked example in the spec:
date 2024-07-06, delay 20, delivery cost 200. -/
def exRaw2 : RawRecord :=
  { delivery_id := 2, date := ⟨2024, 7, 6, 0⟩, delay_minutes := 20,
    delivery_cost := 200, fuel_cost := 5, distance_km := 50,
    customer_rating := 4, driver := "B" }

/-- The enriched two-record example dataset. -/
def exRecords : List Record := [enrich exRaw1, enrich exRaw2]

/-- A record whose delivery cost (1.26) and distance (3.33) are not
representable at one decimal, exposing the rounding of the sum KPIs. -/
def exRaw7 : RawRecord :=
  { delivery_id := 3, date := ⟨2024, 1, 2, 0⟩, delay_minutes := 0,
    delivery_cost := 126 / 100, fuel_cost := 0, distance_km := 333 / 100,
    customer_rating := 5, driver := "C" }

/-- A record with a delay of exactly 15 minutes (the on-time boundary). -/
def exRaw15 : RawRecord :=
  { delivery_id := 4, date := ⟨2024, 3, 1, 0⟩, delay_minutes := 15,
    delivery_cost := 10, fuel_cost := 1, distance_km := 5,
    customer_rating := 5, driver := "D" }

/-- The Avg_Delay column of an aggregation result (empty on error). -/
def avgDelays (x : Except String (List AggRow)) : List Rat :=
  match x with
  | .ok rows => rows.map (fun row => row.Avg_Delay)
  | .error _ => []

/-- C1: for every record with calendar month 1 ≤ m ≤ 12 and calendar year y,
the derived fiscal fields satisfy fiscal_year = y when m ≥ 7 and y − 1
otherwise, and fiscal_quarter is Q1 on {7,8,9}, Q2 on {10,11,12}, Q3 on
{1,2,3} and Q4 on {4,5,6}. -/
theorem c1_fiscal_derivation (r : RawRecord)
    (h1 : 1 ≤ r.date.month) (h2 : r.date.month ≤ 12) :
    ((7 ≤ r.date.month → (enrich r).fiscal_year = r.date.year) ∧
      (r.date.month < 7 → (enrich r).fiscal_year = r.date.year - 1)) ∧
    ((r.date.month ∈ [7, 8, 9] → (enrich r).fiscal_quarter = "Q1") ∧
      (r.date.month ∈ [10, 11, 12] → (enrich r).fiscal_quarter = "Q2") ∧
      (r.date.month ∈ [1, 2, 3] → (enrich r).fiscal_quarter = "Q3") ∧
      (r.date.month ∈ [4, 5, 6] → (enrich r).fiscal_quarter = "Q4")) := by
  obtain ⟨id, date, dm, dc, fc, dk, cr, dr⟩ := r
  obtain ⟨y, m, d, t⟩ := date
  simp only [enrich, fiscalYearOf, fiscal_quarter] at *
  interval_cases m <;> simp

/-- Witness for C1 at the concrete July record of the worked example. -/
theorem c1_fiscal_derivation_witness :
    (enrich exRaw1).fiscal_year = exRaw1.date.year ∧
    (enrich exRaw1).fiscal_quarter = "Q1" :=
  ⟨(c1_fiscal_derivation exRaw1 (by decide) (by decide)).1.1 (by decide),
    (c1_fiscal_derivation exRaw1 (by decide) (by decide)).2.1 (by decide)⟩

/-- C3: both operations are total on the empty input: aggregation returns an
empty table for each of the four valid groupings, and the KPI calculator
returns the defined zero results (no division-by-zero error). -/
theorem c3_empty_inputs :
    get_aggregated_data [] "Daily" = .ok [] ∧
    get_aggregated_data [] "Weekly" = .ok [] ∧
    get_aggregated_data [] "Monthly" = .ok [] ∧
    get_aggregated_data [] "Quarterly" = .ok [] ∧
    (calculate_kpis []).total_deliveries = 0 ∧
    (calculate_kpis []).on_time_rate = 0 ∧
    (calculate_kpis []).avg_delay = 0 ∧
    (calculate_kpis []).avg_rating = 0 := by
  refine ⟨rfl, rfl, rfl, rfl, rfl, ?_, ?_, rfl⟩ <;> decide

/-- C4: the KPI average delay (lines 113–114) is the mean of `delay_minutes`
over the records with delay strictly greater than 15, and 0 when there is no
such record; the returned field is that value rounded to 1 decimal.  On the
two-record example (delays 10 and 20) it is 20, while the aggregator's
Avg_Delay on the same records is the all-records mean 15. -/
theorem c4_kpi_avg_delay :
    (∀ rs : List Record, lateDelays rs = [] → kpiAvgDelay rs = 0) ∧
    (∀ rs : List Record, lateDelays rs ≠ [] →
      kpiAvgDelay rs = (lateDelays rs).sum / ((lateDelays rs).length : Rat)) ∧
    (∀ rs : List Record, (calculate_kpis rs).avg_delay = roundTo 1 (kpiAvgDelay rs)) ∧
    (calculate_kpis exRecords).avg_delay = 20 ∧
    avgDelays (get_aggregated_data exRecords "Quarterly") = [15] := by
  refine ⟨?_, ?_, fun rs => rfl, by decide, by decide⟩
  · intro rs h
    simp [kpiAvgDelay, h]
  · intro rs h
    unfold kpiAvgDelay qmean
    rw [if_neg (by simpa using h)]

/-- Witness for C4: the hypotheses of the first two conjuncts discharged at
the empty list and at the two-record example. -/
theorem c4_kpi_avg_delay_witness :
    kpiAvgDelay [] = 0 ∧
    kpiAvgDelay exRecords = (lateDelays exRecords).sum / ((lateDelays exRecords).length : Rat) :=
  ⟨c4_kpi_avg_delay.1 [] rfl, c4_kpi_avg_delay.2.1 exRecords (by decide)⟩

/-- C5: any grouping value outside {Daily, Weekly, Monthly, Quarterly} makes
the aggregator fail with the unsupported-grouping error; no default grouping
is applied. -/
theorem c5_unsupported_grouping (rs : List Record) (g : String)
    (hg : g ∉ validGroupings) :
    get_aggregated_data rs g = .error ("Unsupported grouping: " ++ g) := by
  simp only [validGroupings, List.mem_cons, List.not_mem_nil, or_false, not_or] at hg
  obtain ⟨h1, h2, h3, h4⟩ := hg
  simp [get_aggregated_data, h1, h2, h3, h4]

/-- Witness for C5 at the grouping "Yearly". -/
theorem c5_unsupported_grouping_witness :
    get_aggregated_data [] "Yearly" = .error ("Unsupported grouping: " ++ "Yearly") :=
  c5_unsupported_grouping [] "Yearly" (by decide)

/-- C7 fails on the code: the sum KPIs are rounded inside `calculate_kpis`
(lines 124–125), so on a record with cost 1.26 and distance 3.33 the returned
fields differ from the exact sums. -/
theorem c7_exact_sums_counterexample :
    (calculate_kpis [enrich exRaw7]).total_cost ≠
      ([enrich exRaw7].map (fun r => r.delivery_cost)).sum ∧
    (calculate_kpis [enrich exRaw7]).total_distance ≠
      ([enrich exRaw7].map (fun r => r.distance_km)).sum := by decide

/-- C7 amended: `calculate_kpis` returns total_cost and total_distance
rounded to 1 decimal (`round(·, 1)`), not the exact sums. -/
theorem c7_sums_rounded (rs : List Record) :
    (calculate_kpis rs).total_cost = roundTo 1 ((rs.map (fun r => r.delivery_cost)).sum) ∧
    (calculate_kpis rs).total_distance = roundTo 1 ((rs.map (fun r => r.distance_km)).sum) :=
  ⟨rfl, rfl⟩

/-- C8: the date-range filter keeps exactly the records whose date portion
lies between the bounds inclusively; only the date portion (never the
time-of-day) is compared, and a record dated exactly on either bound is
retained, as the two boundary instances of the example show. -/
theorem c8_date_filter :
    (∀ (rs : List Record) (s e : Day) (r : Record),
      r ∈ filter_by_date_range rs s e ↔
        r ∈ rs ∧ dayLE s r.date.dateOnly ∧ dayLE r.date.dateOnly e) ∧
    enrich exRaw1 ∈ filter_by_date_range exRecords ⟨2024, 7, 5⟩ ⟨2024, 7, 6⟩ ∧
    enrich exRaw2 ∈ filter_by_date_range exRecords ⟨2024, 7, 5⟩ ⟨2024, 7, 6⟩ := by
  refine ⟨?_, by decide, by decide⟩
  intro rs s e r
  simp [filter_by_date_range, List.mem_filter]

/-- C9: the derived on-time flag is true exactly when the delay is at most
15 minutes; the boundary record with delay exactly 15 counts as on time. -/
theorem c9_on_time_threshold :
    (∀ raw : RawRecord, (enrich raw).on_time = true ↔ raw.delay_minutes ≤ 15) ∧
    (enrich exRaw15).on_time = true := by
  refine ⟨?_, by decide⟩
  intro raw
  simp [enrich]

/-- The bucket of a key has as many records as the key occurs in the key
column. -/
theorem filter_key_length {κ : Type} [DecidableEq κ] (key : Record → κ)
    (rs : List Record) (k : κ) :
    (rs.filter (fun r => key r = k)).length = (rs.map key).count k := by
  induction rs with
  | nil => rfl
  | cons r rs ih =>
    by_cases h : key r = k <;>
      simp [List.filter_cons, List.count_cons, h, ih]

/-- Summing the bucket sizes over the distinct sorted keys recovers the
number of input records. -/
theorem aggBy_sum_deliveries {κ : Type} [DecidableEq κ] (le : κ → κ → Prop)
    [DecidableRel le] (key : Record → κ) (mk : κ → PeriodVal) (rs : List Record) :
    ((aggBy le key mk rs).map (fun row => row.Total_Deliveries)).sum = rs.length := by
  unfold aggBy
  rw [List.map_map]
  have hfun : ((fun row => row.Total_Deliveries) ∘
      (fun k => aggRow (mk k) (rs.filter (fun r => key r = k)))) =
      (fun k => (rs.map key).count k) :=
    funext fun k => by simp [aggRow, filter_key_length]
  rw [hfun]
  unfold sortedKeys
  rw [((List.perm_insertionSort le _).map (fun k => (rs.map key).count k)).sum_eq]
  rw [List.sum_map_count_dedup_eq_length]
  exact List.length_map rs key

/-- Every emitted row aggregates a non-empty bucket. -/
theorem aggBy_mem_pos {κ : Type} [DecidableEq κ] (le : κ → κ → Prop)
    [DecidableRel le] (key : Record → κ) (mk : κ → PeriodVal) (rs : List Record)
    (row : AggRow) (hrow : row ∈ aggBy le key mk rs) : 1 ≤ row.Total_Deliveries := by
  unfold aggBy sortedKeys at hrow
  obtain ⟨k, hk, rfl⟩ := List.mem_map.1 hrow
  have hk2 : k ∈ (rs.map key).dedup := ((List.perm_insertionSort le _).mem_iff).1 hk
  have hk3 : k ∈ rs.map key := List.mem_dedup.1 hk2
  obtain ⟨r, hr, rfl⟩ := List.mem_map.1 hk3
  have hmem : r ∈ rs.filter (fun x => key x = key r) := List.mem_filter.2 ⟨hr, by simp⟩
  have hlen : 0 < (rs.filter (fun x => key x = key r)).length :=
    List.length_pos.2 (List.ne_nil_of_mem hmem)
  simpa [aggRow] using hlen

/-- C2: for every record sequence and every valid grouping, the
Total_Deliveries column of the aggregation sums to the number of input
records — the period buckets partition the input. -/
theorem c2_total_deliveries_partition (rs : List Record) (g : String)
    (hg : g ∈ validGroupings) :
    ∃ rows, get_aggregated_data rs g = .ok rows ∧
      (rows.map (fun row => row.Total_Deliveries)).sum = rs.length := by
  simp only [validGroupings, List.mem_cons, List.not_mem_nil, or_false] at hg
  rcases hg with rfl | rfl | rfl | rfl <;>
    exact ⟨_, rfl, aggBy_sum_deliveries _ _ _ _⟩

/-- Witness for C2 on the two-record example with Quarterly grouping. -/
theorem c2_total_deliveries_partition_witness :
    ∃ rows, get_aggregated_data exRecords "Quarterly" = .ok rows ∧
      (rows.map (fun row => row.Total_Deliveries)).sum = exRecords.length :=
  c2_total_deliveries_partition exRecords "Quarterly" (by decide)

/-- C10: every row of every valid aggregation covers at least one record:
empty periods are omitted, so group means are never taken over an empty
bucket. -/
theorem c10_nonempty_buckets (rs : List Record) (g : String)
    (hg : g ∈ validGroupings) :
    ∃ rows, get_aggregated_data rs g = .ok rows ∧
      ∀ row ∈ rows, 1 ≤ row.Total_Deliveries := by
  simp only [validGroupings, List.mem_cons, List.not_mem_nil, or_false] at hg
  rcases hg with rfl | rfl | rfl | rfl <;>
    exact ⟨_, rfl, fun row hrow => aggBy_mem_pos _ _ _ _ row hrow⟩

/-- Witness for C10 on the two-record example with Monthly grouping. -/
theorem c10_nonempty_buckets_witness :
    ∃ rows, get_aggregated_data exRecords "Monthly" = .ok rows ∧
      ∀ row ∈ rows, 1 ≤ row.Total_Deliveries :=
  c10_nonempty_buckets exRecords "Monthly" (by decide)

/-- Strict chronological order on timestamps. -/
def dtLT (a b : DateTime) : Prop :=
  a.year < b.year ∨ (a.year = b.year ∧ (a.month < b.month ∨ (a.month = b.month ∧
    (a.day < b.day ∨ (a.day = b.day ∧ a.tod < b.tod)))))

/-- Strict chronological order on (year, month) keys. -/
def ymLT (a b : Int × Nat) : Prop :=
  a.1 < b.1 ∨ (a.1 = b.1 ∧ a.2 < b.2)

/-- The quarter number (1–4) named by a fiscal-quarter label. -/
def quarterNum (s : String) : Nat :=
  if s = "Q1" then 1 else if s = "Q2" then 2 else if s = "Q3" then 3 else 4

/-- Strict chronological order on the quarterly keys: fiscal year first, then
the quarter number 1–4 (not anything alphabetic on the combined label). -/
def fqChronoLT (a b : Int × String) : Prop :=
  a.1 < b.1 ∨ (a.1 = b.1 ∧ quarterNum a.2 < quarterNum b.2)

/-- One of the four strings produced by the fiscal-quarter derivation. -/
def isQuarterStr (s : String) : Prop :=
  s = "Q1" ∨ s = "Q2" ∨ s = "Q3" ∨ s = "Q4"

instance : IsTotal DateTime dtLE :=
  ⟨fun a b => by unfold dtLE; omega⟩

instance : IsTrans DateTime dtLE :=
  ⟨fun a b c hab hbc => by unfold dtLE at *; omega⟩

instance : IsTotal (Int × Nat) ymLE :=
  ⟨fun a b => by unfold ymLE; omega⟩

instance : IsTrans (Int × Nat) ymLE :=
  ⟨fun a b c hab hbc => by unfold ymLE at *; omega⟩

/-- The lexicographic code-point comparison is total. -/
theorem charListLeb_total (a : List Char) : ∀ b,
    charListLeb a b = true ∨ charListLeb b a = true := by
  induction a with
  | nil => intro b; exact Or.inl rfl
  | cons x xs ih =>
    intro b
    cases b with
    | nil => exact Or.inr rfl
    | cons y ys =>
      by_cases hxy : x < y
      · exact Or.inl (by simp [charListLeb, hxy])
      · by_cases hyx : y < x
        · exact Or.inr (by simp [charListLeb, hyx])
        · have hxy' : x = y := le_antisymm (not_lt.1 hyx) (not_lt.1 hxy)
          subst hxy'
          rcases ih ys with h | h
          · exact Or.inl (by simp [charListLeb, lt_irrefl, h])
          · exact Or.inr (by simp [charListLeb, lt_irrefl, h])

/-- The lexicographic code-point comparison is transitive. -/
theorem charListLeb_trans {a : List Char} : ∀ {b c : List Char},
    charListLeb a b = true → charListLeb b c = true → charListLeb a c = true := by
  induction a with
  | nil => intro b c h1 h2; rfl
  | cons x xs ih =>
    intro b c h1 h2
    cases b with
    | nil => simp [charListLeb] at h1
    | cons y ys =>
      cases c with
      | nil => simp [charListLeb] at h2
      | cons z zs =>
        simp only [charListLeb] at h1 h2 ⊢
        by_cases hxy : x < y <;> by_cases hyz : y < z
        · simp [hxy.trans hyz]
        · by_cases hzy : z < y
          · simp [hyz, hzy] at h2
          · have hyz' : y = z := le_antisymm (not_lt.1 hzy) (not_lt.1 hyz)
            subst hyz'
            simp [hxy]
        · by_cases hyx : y < x
          · simp [hxy, hyx] at h1
          · have hxy' : x = y := le_antisymm (not_lt.1 hyx) (not_lt.1 hxy)
            subst hxy'
            simp [hyz]
        · by_cases hyx : y < x
          · simp [hxy, hyx] at h1
          · have hxy' : x = y := le_antisymm (not_lt.1 hyx) (not_lt.1 hxy)
            by_cases hzy : z < y
            · simp [hyz, hzy] at h2
            · have hyz' : y = z := le_antisymm (not_lt.1 hzy) (not_lt.1 hyz)
              subst hxy'
              subst hyz'
              simp only [lt_irrefl, if_false] at h1 h2 ⊢
              exact ih h1 h2

instance : IsTotal (Int × String) fqLE :=
  ⟨fun a b => by
    unfold fqLE
    rcases lt_trichotomy a.1 b.1 with h | h | h
    · exact Or.inl (Or.inl h)
    · rcases charListLeb_total a.2.data b.2.data with h2 | h2
      · exact Or.inl (Or.inr ⟨h, h2⟩)
      · exact Or.inr (Or.inr ⟨h.symm, h2⟩)
    · exact Or.inr (Or.inl h)⟩

instance : IsTrans (Int × String) fqLE :=
  ⟨fun a b c hab hbc => by
    unfold fqLE at *
    rcases hab with h1 | ⟨e1, l1⟩
    · rcases hbc with h2 | ⟨e2, l2⟩
      · exact Or.inl (h1.trans h2)
      · exact Or.inl (e2 ▸ h1)
    · rcases hbc with h2 | ⟨e2, l2⟩
      · exact Or.inl (e1 ▸ h2)
      · exact Or.inr ⟨e1.trans e2, charListLeb_trans l1 l2⟩⟩

/-- The sorted distinct keys of any grouping are pairwise strictly
increasing under the sort order: sorted by `insertionSort` and duplicate-free
by `dedup`. -/
theorem sortedKeys_pairwise {κ : Type} [DecidableEq κ] (le : κ → κ → Prop)
    [DecidableRel le] [IsTotal κ le] [IsTrans κ le] (key : Record → κ)
    (rs : List Record) :
    (sortedKeys le key rs).Pairwise (fun a b => le a b ∧ a ≠ b) := by
  have hs : (sortedKeys le key rs).Pairwise le := List.sorted_insertionSort le _
  have hnd : (sortedKeys le key rs).Nodup :=
    ((List.perm_insertionSort le _).nodup_iff).2 (List.nodup_dedup _)
  exact hs.and hnd

/-- A non-strict chronological comparison between distinct timestamps is
strict. -/
theorem dtLT_of_le_ne {a b : DateTime} (h : dtLE a b) (hne : a ≠ b) : dtLT a b := by
  obtain ⟨a1, a2, a3, a4⟩ := a
  obtain ⟨b1, b2, b3, b4⟩ := b
  have hne' : ¬(a1 = b1 ∧ a2 = b2 ∧ a3 = b3 ∧ a4 = b4) := fun hh =>
    hne (by simp [hh.1, hh.2.1, hh.2.2.1, hh.2.2.2])
  unfold dtLE at h
  unfold dtLT
  dsimp only at h hne' ⊢
  omega

/-- A non-strict (year, month) comparison between distinct keys is strict. -/
theorem ymLT_of_le_ne {a b : Int × Nat} (h : ymLE a b) (hne : a ≠ b) : ymLT a b := by
  obtain ⟨a1, a2⟩ := a
  obtain ⟨b1, b2⟩ := b
  have hne' : ¬(a1 = b1 ∧ a2 = b2) := fun hh => hne (by simp [hh.1, hh.2])
  unfold ymLE at h
  unfold ymLT
  dsimp only at h hne' ⊢
  omega

/-- The fiscal-quarter derivation only ever produces the labels Q1–Q4. -/
theorem fiscal_quarter_mem (m : Nat) : isQuarterStr (fiscal_quarter m) := by
  unfold isQuarterStr fiscal_quarter
  by_cases h1 : m = 7 ∨ m = 8 ∨ m = 9
  · simp [h1]
  · by_cases h2 : m = 10 ∨ m = 11 ∨ m = 12
    · simp [h1, h2]
    · by_cases h3 : m = 1 ∨ m = 2 ∨ m = 3
      · simp [h1, h2, h3]
      · simp [h1, h2, h3]

/-- On the labels Q1–Q4, the string order used by the groupby sort agrees
with the order of the quarter numbers. -/
theorem quarterNum_lt_of_le_ne {a b : String} (ha : isQuarterStr a)
    (hb : isQuarterStr b) (h1 : strLE a b) (h2 : a ≠ b) :
    quarterNum a < quarterNum b := by
  rcases ha with rfl | rfl | rfl | rfl <;> rcases hb with rfl | rfl | rfl | rfl <;>
    first
      | exact absurd rfl h2
      | exact absurd h1 (by decide)
      | decide

/-- C6: for every enriched record sequence and every valid grouping, the
aggregated rows are emitted in strictly ascending chronological order of the
grouping key; for Quarterly the order is fiscal year first and then quarter
number 1,2,3,4 (not an alphabetic sort of the combined period label). -/
theorem c6_output_ordering (raws : List RawRecord) :
    (get_aggregated_data (raws.map enrich) "Daily" =
        .ok (aggBy dtLE (fun r => r.date) (fun k => .ts k) (raws.map enrich)) ∧
      (sortedKeys dtLE (fun r => r.date) (raws.map enrich)).Pairwise dtLT) ∧
    (get_aggregated_data (raws.map enrich) "Weekly" =
        .ok (aggBy (fun a b : Int => a ≤ b) (fun r => r.week_year)
          (fun k => .str (formatDayNum k)) (raws.map enrich)) ∧
      (sortedKeys (fun a b : Int => a ≤ b) (fun r => r.week_year)
        (raws.map enrich)).Pairwise (· < ·)) ∧
    (get_aggregated_data (raws.map enrich) "Monthly" =
        .ok (aggBy ymLE (fun r => r.month_year)
          (fun k => .str (padNat 4 k.1.toNat ++ "-" ++ padNat 2 k.2)) (raws.map enrich)) ∧
      (sortedKeys ymLE (fun r => r.month_year) (raws.map enrich)).Pairwise ymLT) ∧
    (get_aggregated_data (raws.map enrich) "Quarterly" =
        .ok (aggBy fqLE (fun r => (r.fiscal_year, r.fiscal_quarter))
          (fun k => .str (toString k.1 ++ "-" ++ k.2)) (raws.map enrich)) ∧
      (sortedKeys fqLE (fun r => (r.fiscal_year, r.fiscal_quarter))
        (raws.map enrich)).Pairwise fqChronoLT) := by
  refine ⟨⟨rfl, ?_⟩, ⟨rfl, ?_⟩, ⟨rfl, ?_⟩, ⟨rfl, ?_⟩⟩
  · exact (sortedKeys_pairwise dtLE _ _).imp (fun h => dtLT_of_le_ne h.1 h.2)
  · exact (sortedKeys_pairwise _ _ _).imp (fun h => lt_of_le_of_ne h.1 h.2)
  · exact (sortedKeys_pairwise ymLE _ _).imp (fun h => ymLT_of_le_ne h.1 h.2)
  · have hmem : ∀ k ∈ sortedKeys fqLE (fun r => (r.fiscal_year, r.fiscal_quarter))
        (raws.map enrich), isQuarterStr k.2 := by
      intro k hk
      have hk2 := ((List.perm_insertionSort fqLE _).mem_iff).1 hk
      have hk3 := List.mem_dedup.1 hk2
      obtain ⟨r, hr, rfl⟩ := List.mem_map.1 hk3
      obtain ⟨raw, hraw, rfl⟩ := List.mem_map.1 hr
      exact fiscal_quarter_mem raw.date.month
    refine (sortedKeys_pairwise fqLE _ _).imp_of_mem ?_
    intro a b ha hb h
    obtain ⟨hle, hne⟩ := h
    rcases hle with h1 | ⟨e1, l1⟩
    · exact Or.inl h1
    · refine Or.inr ⟨e1, ?_⟩
      have hne2 : a.2 ≠ b.2 := fun hh => hne (Prod.ext e1 hh)
      exact quarterNum_lt_of_le_ne (hmem a ha) (hmem b hb) l1 hne2

end Logistics
